import Mathlib

/-!
Verification of the packet-capture engine in `pkg/netdiag/sniffer.go`.

The Go source is shallowly embedded: bytes are `Nat` (values < 256 where it
matters), Go strings are Lean `String`, Go maps are Lean functions with a
`bump` update, and the effectful capture session (`StartSniffer`) is modelled
as a pure function from a configuration, an environment of external outcomes
(interface open result, file-creation results, link type) and a schedule of
loop events to a result together with a trace of the observable actions
(handle acquisition/release, pcap writes, emitted summary lines).
-/

namespace Sniffer

/-! ## Payload formatting (`formatPayload` in sniffer.go) -/

/-- Lowercase hexadecimal digit, as used by Go `hex.EncodeToString`. -/
def hexDigit (d : Nat) : Char :=
  if d < 10 then Char.ofNat (48 + d) else Char.ofNat (87 + d)

/-- The two lowercase hex digits of one byte, high nibble first
(`hex.EncodeToString` writes `hextable[b>>4]` then `hextable[b&0x0f]`). -/
def hexByte (b : Nat) : List Char := [hexDigit (b / 16), hexDigit (b % 16)]

/-- Go `hex.EncodeToString`: each byte becomes two lowercase hex digits. -/
def hexEncode (payload : List Nat) : String :=
  String.mk (payload.flatMap hexByte)

/-- ASCII whitespace recognised by Go `strings.TrimSpace` (the strings this
development trims contain only ASCII, where Unicode `White_Space` is exactly
these characters). -/
def isSpaceChar (c : Char) : Bool :=
  c = ' ' || c = '\t' || c = '\n' || c = '\x0b' || c = '\x0c' || c = '\r'

/-- Go `strings.TrimSpace`: drop leading and trailing whitespace. -/
def trimSpace (s : String) : String :=
  String.mk (((s.data.dropWhile isSpaceChar).reverse.dropWhile isSpaceChar).reverse)

/-- Function `formatPayload` from sniffer.go.  The Go loop builds the ASCII rendering
and counts unprintable bytes in one pass; that pass is embedded as a left
fold.  The Go threshold test is
`float64(unprintable)/float64(len(payload)) > 0.3`; in exact arithmetic this
is `10*unprintable > 3*len(payload)`, and the two agree for every payload a
Go slice can hold (the closest `float64` to 0.3 is below 3/10 by ≈1.1e-17,
so a disagreement would need a payload of more than 10^15 bytes; also for
the empty payload Go compares NaN > 0.3, which is false, matching 0 > 0). -/
def formatPayload (payload : List Nat) : String :=
  let r := payload.foldl
    (fun (acc : List Char × Nat) b =>
      if 32 ≤ b ∧ b ≤ 126 then (acc.1 ++ [Char.ofNat b], acc.2)
      else if b = 13 ∨ b = 10 ∨ b = 9 then (acc.1 ++ [' '], acc.2)
      else (acc.1 ++ ['.'], acc.2 + 1))
    ([], 0)
  if 10 * r.2 > 3 * payload.length then hexEncode payload
  else trimSpace (String.mk r.1)

/-! Spec-side restatement of the rendering rule, used to compare against
`formatPayload`: classify each byte as printable ASCII (0x20–0x7E),
normalized whitespace (CR, LF, TAB, rendered as a space), or unprintable
(rendered as `.`). -/

/-- Rendering of one byte per the spec's classification. -/
def renderByte (b : Nat) : Char :=
  if 32 ≤ b ∧ b ≤ 126 then Char.ofNat b
  else if b = 13 ∨ b = 10 ∨ b = 9 then ' '
  else '.'

/-- Spec-side unprintable test: outside 0x20–0x7E and not CR/LF/TAB. -/
def isUnprintableByte (b : Nat) : Bool :=
  !(decide (32 ≤ b ∧ b ≤ 126)) && !(decide (b = 13 ∨ b = 10 ∨ b = 9))

/-- Number of unprintable bytes of a payload. -/
def unprintableCount (payload : List Nat) : Nat :=
  (payload.filter isUnprintableByte).length

/-! ## Decoded-packet model

A `gopacket.Packet` as consumed by `printPacketInfo` and
`PacketStats.AddPacket`: the per-layer views returned by `packet.Layer(...)`
(`none` when the layer is absent), the list of layer-type names returned by
`packet.Layers()`, the application-layer payload (`none` when
`packet.ApplicationLayer()` is nil), the capture metadata and the raw frame
bytes (`packet.Data()`).  Addresses are kept as their rendered strings, which
is how `printPacketInfo` consumes them. -/

/-- Capture timestamp, already split into the components that
`Format("15:04:05.000000")` prints. -/
structure Timestamp where
  h : Nat
  m : Nat
  s : Nat
  us : Nat
deriving DecidableEq, Repr

/-- Metadata of a packet (`packet.Metadata()`): display timestamp, captured length and original
on-wire length (`Metadata().Length`). -/
structure PacketMeta where
  ts : Timestamp
  captureLength : Nat
  length : Nat
deriving DecidableEq, Repr

structure EthernetL where
  srcMAC : String
  dstMAC : String
deriving DecidableEq, Repr

structure IPv4L where
  srcIP : String
  dstIP : String
deriving DecidableEq, Repr

structure IPv6L where
  srcIP : String
  dstIP : String
deriving DecidableEq, Repr

structure TCPL where
  srcPort : Nat
  dstPort : Nat
  syn : Bool
  ack : Bool
  fin : Bool
  rst : Bool
  psh : Bool
  urg : Bool
  seq : Nat
  ackNum : Nat
  window : Nat
deriving DecidableEq, Repr

structure UDPL where
  srcPort : Nat
  dstPort : Nat
  length : Nat
deriving DecidableEq, Repr

structure ICMPv4L where
  typ : Nat
  code : Nat
deriving DecidableEq, Repr

structure ICMPv6L where
  typ : Nat
deriving DecidableEq, Repr

/-- DNS layer view: `QR` flag, question names, answer names. -/
structure DNSL where
  qr : Bool
  questions : List String
  answers : List String
deriving DecidableEq, Repr

structure Packet where
  meta : PacketMeta
  eth : Option EthernetL
  ip4 : Option IPv4L
  ip6 : Option IPv6L
  tcp : Option TCPL
  udp : Option UDPL
  icmp4 : Option ICMPv4L
  icmp6 : Option ICMPv6L
  dns : Option DNSL
  layers : List String
  appPayload : Option (List Nat)
  data : List Nat
deriving DecidableEq, Repr

/-! ## Summary-line rendering (`printPacketInfo` in sniffer.go)

`printPacketInfo` builds `output` by a chain of `output += ...` appends, one
block per layer; each block below is the string appended by the
corresponding Go block, and the whole line is their concatenation in the
same order. -/

/-- One decimal digit character. -/
def digitChar (d : Nat) : Char := Char.ofNat (48 + d)

/-- Two-digit zero-padded field, as `Format` prints `15`, `04`, `05`
(hours/minutes/seconds are < 60, hence always two digits). -/
def pad2 (n : Nat) : String := String.mk [digitChar (n / 10 % 10), digitChar (n % 10)]

/-- Six-digit zero-padded microsecond field, as `Format` prints `.000000`
(microseconds are < 10^6, hence always six digits). -/
def pad6 (n : Nat) : String :=
  String.mk ((List.range 6).reverse.map fun i => digitChar (n / 10 ^ i % 10))

/-- Rendering of `packet.Metadata().Timestamp.Format("15:04:05.000000")`. -/
def fmtTimestamp (t : Timestamp) : String :=
  pad2 t.h ++ ":" ++ pad2 t.m ++ ":" ++ pad2 t.s ++ "." ++ pad6 t.us

/-- The Ethernet block: note the Go code prints the timestamp only here,
inside the `ethernetLayer != nil` branch. -/
def ethBlock (p : Packet) : String :=
  match p.eth with
  | none => ""
  | some e => fmtTimestamp p.meta.ts ++ " " ++ e.srcMAC ++ " > " ++ e.dstMAC ++ ", "

def ip4Block (p : Packet) : String :=
  match p.ip4 with
  | none => ""
  | some ip => "IPv4 " ++ ip.srcIP ++ " > " ++ ip.dstIP ++ ", "

def ip6Block (p : Packet) : String :=
  match p.ip6 with
  | none => ""
  | some ip => "IPv6 " ++ ip.srcIP ++ " > " ++ ip.dstIP ++ ", "

/-- TCP flag letters, accumulated in the Go order S, A, F, R, P, U. -/
def tcpFlags (t : TCPL) : String :=
  (if t.syn then "S" else "") ++ (if t.ack then "A" else "")
    ++ (if t.fin then "F" else "") ++ (if t.rst then "R" else "")
    ++ (if t.psh then "P" else "") ++ (if t.urg then "U" else "")

def tcpBlock (p : Packet) : String :=
  match p.tcp with
  | none => ""
  | some t =>
    "TCP " ++ toString t.srcPort ++ " > " ++ toString t.dstPort
      ++ " [" ++ tcpFlags t ++ "] Seq=" ++ toString t.seq
      ++ " Ack=" ++ toString t.ackNum ++ " Win=" ++ toString t.window

def udpBlock (p : Packet) : String :=
  match p.udp with
  | none => ""
  | some u =>
    "UDP " ++ toString u.srcPort ++ " > " ++ toString u.dstPort
      ++ " Len=" ++ toString u.length

def icmpBlock (p : Packet) : String :=
  match p.icmp4 with
  | none => ""
  | some i => "ICMP Type=" ++ toString i.typ ++ " Code=" ++ toString i.code

def icmp6Block (p : Packet) : String :=
  match p.icmp6 with
  | none => ""
  | some i => "ICMPv6 Type=" ++ toString i.typ

/-- The DNS block: ` DNS Response`/` DNS Query` followed by one
space-prefixed name per answer/question. -/
def dnsBlock (p : Packet) : String :=
  match p.dns with
  | none => ""
  | some d =>
    if d.qr then
      d.answers.foldl (fun acc a => acc ++ " " ++ a) " DNS Response"
    else
      d.questions.foldl (fun acc q => acc ++ " " ++ q) " DNS Query"

/-- The length block, appended only when `Metadata().Length > 0`. -/
def lenBlock (p : Packet) : String :=
  if 0 < p.meta.length then ", length " ++ toString p.meta.length ++ " bytes" else ""

/-- The payload block: with `payloadLen > 0` and a non-empty application
payload, at most `payloadLen` bytes are previewed on a second line.
`payloadLen` is a Go `int`; the truncation `payload[:payloadLen]` only runs
under `payloadLen > 0`, where `Int.toNat` is exact. -/
def payloadBlock (p : Packet) (payloadLen : Int) : String :=
  if 0 < payloadLen then
    match p.appPayload with
    | none => ""
    | some payload =>
      if 0 < payload.length then
        "\n  Payload: " ++ formatPayload (payload.take payloadLen.toNat)
      else ""
  else ""

/-- The full `output` string built by `printPacketInfo` (printed to the
console and, when configured, written to the text sink followed by a
newline). -/
def buildOutput (p : Packet) (payloadLen : Int) : String :=
  ethBlock p ++ ip4Block p ++ ip6Block p ++ tcpBlock p ++ udpBlock p
    ++ icmpBlock p ++ icmp6Block p ++ dnsBlock p ++ lenBlock p
    ++ payloadBlock p payloadLen

/-! ## Substring predicate

A small executable "contains" test used to state properties of rendered
summary lines. -/

/-- Test `startsWithL n l`: the list `n` starts the list `l`. -/
def startsWithL : List Char → List Char → Bool
  | [], _ => true
  | _ :: _, [] => false
  | a :: as, b :: bs => a = b && startsWithL as bs

/-- Test `containsSub n l`: `n` occurs contiguously inside `l`. -/
def containsSub (n : List Char) : List Char → Bool
  | [] => n.isEmpty
  | c :: rest => startsWithL n (c :: rest) || containsSub n rest

/-- Test `hasSub needle hay`: the string `needle` occurs inside `hay`. -/
def hasSub (needle hay : String) : Bool := containsSub needle.data hay.data

/-! ## Statistics (`PacketStats` / `AddPacket` in sniffer.go)

Maps are embedded as functions with a point update; `StartTime`, `EndTime`
and the mutex (the recorder is called from the single loop goroutine) carry
no information the claims touch and are omitted. -/

/-- Go map increment `m[k]++` (a missing key reads as zero). -/
def bump {α : Type} [DecidableEq α] (m : α → Nat) (k : α) : α → Nat :=
  fun x => if x = k then m x + 1 else m x

structure PacketStats where
  packetCount : Nat
  totalBytes : Nat
  protocolMap : String → Nat
  sourceIPs : String → Nat
  destIPs : String → Nat
  sourcePorts : Nat → Nat
  destPorts : Nat → Nat

/-- Constructor `NewPacketStats`: empty maps, zero counters. -/
def newPacketStats : PacketStats where
  packetCount := 0
  totalBytes := 0
  protocolMap := fun _ => 0
  sourceIPs := fun _ => 0
  destIPs := fun _ => 0
  sourcePorts := fun _ => 0
  destPorts := fun _ => 0

/-- Recorder `PacketStats.AddPacket`: counters, one protocol-map increment per
decoded layer, IP counters from IPv4 else IPv6, port counters from TCP else
UDP. -/
def addPacket (ps : PacketStats) (p : Packet) : PacketStats :=
  let ps := { ps with
    packetCount := ps.packetCount + 1
    totalBytes := ps.totalBytes + p.meta.length
    protocolMap := p.layers.foldl (fun m l => bump m l) ps.protocolMap }
  let ps :=
    match p.ip4 with
    | some ip =>
      { ps with sourceIPs := bump ps.sourceIPs ip.srcIP
                destIPs := bump ps.destIPs ip.dstIP }
    | none =>
      match p.ip6 with
      | some ip =>
        { ps with sourceIPs := bump ps.sourceIPs ip.srcIP
                  destIPs := bump ps.destIPs ip.dstIP }
      | none => ps
  match p.tcp with
  | some t =>
    { ps with sourcePorts := bump ps.sourcePorts t.srcPort
              destPorts := bump ps.destPorts t.dstPort }
  | none =>
    match p.udp with
    | some u =>
      { ps with sourcePorts := bump ps.sourcePorts u.srcPort
                destPorts := bump ps.destPorts u.dstPort }
    | none => ps

/-! ## Capture session (`StartSniffer` in sniffer.go)

`StartSniffer` is effectful; it is embedded as a pure function of
- the configuration (`SnifferConfig`, mirroring the Go struct),
- an environment recording the outcome of each external call
  (`pcap.OpenLive`, `SetBPFFilter`, the two `os.Create`, the pcap header
  write, and the link type the opened handle reports), and
- a schedule of loop events: what each `select` iteration observes
  (a frame from `packetSource.Packets()`, that channel closing, or the stop
  channel being closed by the interrupt listener).
It returns `none` when the loop would still be blocked after the schedule is
exhausted, otherwise the returned `error` value and the trace of observable
actions.  `defer`red closes run last-in-first-out at return, which the
traces reproduce. -/

structure SnifferConfig where
  interface : String
  filter : String
  timeout : Int
  output : String
  snaplen : Int
  promiscuous : Bool
  count : Int
  verbose : Bool
  savePcap : String
  statistics : Bool
  payloadLen : Int
deriving DecidableEq, Repr

/-- Outcomes of the external calls `StartSniffer` makes, plus the link type
of the opened handle (`handle.LinkType()`). -/
structure Env where
  openOk : Bool
  linkType : Nat
  filterOk : Bool
  outFileOk : Bool
  pcapFileOk : Bool
  headerOk : Bool
deriving DecidableEq, Repr

/-- What one iteration of the `select` loop observes. -/
inductive LoopEvent where
  | frame (p : Packet)
  | chanClosed
  | stop
deriving DecidableEq, Repr

/-- The three closable resources `StartSniffer` acquires. -/
inductive Res where
  | capture
  | outFile
  | pcapFile
deriving DecidableEq, Repr

/-- Observable actions of a session run. -/
inductive TraceEv where
  | openLive (iface : String) (snaplen : Int) (promisc : Bool)
  | acquire (r : Res)
  | release (r : Res)
  | writeFileHeader (snaplen : Nat) (linkType : Nat)
  | writeRecord (meta : PacketMeta) (data : List Nat)
  | emitLine (line : String)
  | statsReport
deriving DecidableEq, Repr

/-- The default-substitution at the top of `StartSniffer`:
`if config.Snaplen <= 0 { config.Snaplen = 1600 }`. -/
def effSnaplen (c : SnifferConfig) : Int :=
  if c.snaplen ≤ 0 then 1600 else c.snaplen

/-- Go `uint32(x)` conversion, used for the pcap header's snaplen field. -/
def toUInt32 (i : Int) : Nat := (i % (2 : Int) ^ 32).toNat

/-- The `loop: for { select { ... } }` of `StartSniffer`, returning the
packets processed before the loop breaks (`none` if the schedule ends with
the loop still waiting).  On a frame: process it, increment `count`, and
break when `config.Count > 0 && count >= config.Count`; on the packet
channel closing or on the stop channel: break before processing. -/
def captureLoop (count : Int) : List LoopEvent → Int → Option (List Packet)
  | [], _ => none
  | LoopEvent.chanClosed :: _, _ => some []
  | LoopEvent.stop :: _, _ => some []
  | LoopEvent.frame p :: rest, n =>
    if 0 < count ∧ count ≤ n + 1 then some [p]
    else (captureLoop count rest (n + 1)).map (p :: ·)

/-- The actions one processed frame contributes, in the order
`printPacketInfo` → pcap write → statistics: the emitted summary line and,
when a pcap sink is configured, the record carrying the frame's capture
metadata and raw bytes. -/
def perFrameTrace (c : SnifferConfig) (p : Packet) : List TraceEv :=
  TraceEv.emitLine (buildOutput p c.payloadLen)
    :: (if c.savePcap ≠ "" then [TraceEv.writeRecord p.meta p.data] else [])

/-- Embedding of `StartSniffer`.  Each early `return fmt.Errorf(...)` runs the `defer`s
registered so far, in reverse order; the success path runs the loop, prints
statistics when enabled, and then runs all `defer`s. -/
def startSnifferRun (c : SnifferConfig) (env : Env) (events : List LoopEvent) :
    Option (Except String Unit × List TraceEv) :=
  let snap := effSnaplen c
  let opened := [TraceEv.openLive c.interface snap c.promiscuous]
  if ¬env.openOk then
    some (Except.error "open interface failed", opened)
  else
    let opened := opened ++ [TraceEv.acquire Res.capture]
    if c.filter ≠ "" ∧ ¬env.filterOk then
      some (Except.error "set filter failed", opened ++ [TraceEv.release Res.capture])
    else if c.output ≠ "" ∧ ¬env.outFileOk then
      some (Except.error "create output file failed",
        opened ++ [TraceEv.release Res.capture])
    else
      let acq2 := opened ++ (if c.output ≠ "" then [TraceEv.acquire Res.outFile] else [])
      let rel2 := (if c.output ≠ "" then [TraceEv.release Res.outFile] else [])
        ++ [TraceEv.release Res.capture]
      if c.savePcap ≠ "" ∧ ¬env.pcapFileOk then
        some (Except.error "create pcap file failed", acq2 ++ rel2)
      else
        let acq3 := acq2 ++ (if c.savePcap ≠ "" then [TraceEv.acquire Res.pcapFile] else [])
        let rel3 := (if c.savePcap ≠ "" then [TraceEv.release Res.pcapFile] else []) ++ rel2
        if c.savePcap ≠ "" ∧ ¬env.headerOk then
          some (Except.error "write pcap header failed", acq3 ++ rel3)
        else
          let setup := acq3
            ++ (if c.savePcap ≠ "" then [TraceEv.writeFileHeader (toUInt32 snap) env.linkType] else [])
          match captureLoop c.count events 0 with
          | none => none
          | some processed =>
            some (Except.ok (),
              setup ++ processed.flatMap (perFrameTrace c)
                ++ (if c.statistics then [TraceEv.statsReport] else []) ++ rel3)

/-- The interrupt-listener goroutine: it receives one signal from
`signalChan`, closes `stopChan` once, and calls `signal.Stop`; its body is
straight-line (no loop), so however many interrupts arrive, `close(stopChan)`
runs at most once.  The function returns the number of `close(stopChan)`
operations performed when `signals` interrupts are delivered. -/
def interruptListener (signals : Nat) : Nat :=
  if 1 ≤ signals then 1 else 0

/-! Trace projections. -/

/-- Resources acquired along a trace, in order. -/
def acquires (tr : List TraceEv) : List Res :=
  tr.filterMap fun e => match e with | TraceEv.acquire r => some r | _ => none

/-- Resources released along a trace, in order. -/
def releases (tr : List TraceEv) : List Res :=
  tr.filterMap fun e => match e with | TraceEv.release r => some r | _ => none

/-- Summary lines emitted along a trace, in order. -/
def emitLines (tr : List TraceEv) : List String :=
  tr.filterMap fun e => match e with | TraceEv.emitLine s => some s | _ => none

/-- One write to the pcap sink. -/
inductive PcapWrite where
  | header (snaplen : Nat) (linkType : Nat)
  | record (meta : PacketMeta) (data : List Nat)
deriving DecidableEq, Repr

/-- The sequence of writes the pcap sink receives along a trace. -/
def pcapWrites (tr : List TraceEv) : List PcapWrite :=
  tr.filterMap fun e => match e with
    | TraceEv.writeFileHeader s lt => some (PcapWrite.header s lt)
    | TraceEv.writeRecord m d => some (PcapWrite.record m d)
    | _ => none

/-- Number of statistics reports along a trace. -/
def statsReports (tr : List TraceEv) : Nat :=
  (tr.filter (· = TraceEv.statsReport)).length

/-- Number of pcap-record writes along a trace. -/
def recordWrites (tr : List TraceEv) : Nat :=
  (tr.filterMap fun e => match e with
    | TraceEv.writeRecord m d => some (m, d) | _ => none).length

/-! ## Helper lemmas -/

theorem startsWithL_append (n h t : List Char) (hw : startsWithL n h = true) :
    startsWithL n (h ++ t) = true := by
  induction n generalizing h with
  | nil => simp [startsWithL]
  | cons a as ih =>
    cases h with
    | nil => simp [startsWithL] at hw
    | cons b bs =>
      simp only [startsWithL, Bool.and_eq_true] at hw
      simp only [List.cons_append, startsWithL, Bool.and_eq_true]
      exact ⟨hw.1, ih bs hw.2⟩

theorem containsSub_nil_needle (t : List Char) : containsSub [] t = true := by
  induction t with
  | nil => rfl
  | cons c rest ih => simp [containsSub, startsWithL]

theorem containsSub_append_left (n h t : List Char) (hw : containsSub n h = true) :
    containsSub n (h ++ t) = true := by
  induction h with
  | nil =>
    simp only [containsSub, List.isEmpty_iff] at hw
    subst hw
    exact containsSub_nil_needle _
  | cons c rest ih =>
    simp only [containsSub, Bool.or_eq_true] at hw
    rcases hw with hw | hw
    · simp only [List.cons_append, containsSub, Bool.or_eq_true]
      exact Or.inl (startsWithL_append n (c :: rest) t hw)
    · simp only [List.cons_append, containsSub, Bool.or_eq_true]
      exact Or.inr (ih hw)

theorem containsSub_append_right (n h t : List Char) (hw : containsSub n t = true) :
    containsSub n (h ++ t) = true := by
  induction h with
  | nil => simpa using hw
  | cons c rest ih =>
    simp only [List.cons_append, containsSub, Bool.or_eq_true]
    exact Or.inr ih

theorem hasSub_append_left (n a b : String) (hw : hasSub n a = true) :
    hasSub n (a ++ b) = true := by
  simp only [hasSub, String.data_append]
  exact containsSub_append_left _ _ _ hw

theorem hasSub_append_right (n a b : String) (hw : hasSub n b = true) :
    hasSub n (a ++ b) = true := by
  simp only [hasSub, String.data_append]
  exact containsSub_append_right _ _ _ hw

theorem formatPayload_fold (payload : List Nat) (cs : List Char) (n : Nat) :
    payload.foldl
      (fun (acc : List Char × Nat) b =>
        if 32 ≤ b ∧ b ≤ 126 then (acc.1 ++ [Char.ofNat b], acc.2)
        else if b = 13 ∨ b = 10 ∨ b = 9 then (acc.1 ++ [' '], acc.2)
        else (acc.1 ++ ['.'], acc.2 + 1))
      (cs, n)
    = (cs ++ payload.map renderByte, n + unprintableCount payload) := by
  induction payload generalizing cs n with
  | nil => simp [unprintableCount]
  | cons b rest ih =>
    by_cases h1 : 32 ≤ b ∧ b ≤ 126
    · simp [h1, ih, renderByte, unprintableCount, isUnprintableByte, List.filter_cons]
    · by_cases h2 : b = 13 ∨ b = 10 ∨ b = 9
      · simp [h1, h2, ih, renderByte, unprintableCount, isUnprintableByte, List.filter_cons]
      · simp only [List.foldl_cons, if_neg h1, if_neg h2, ih]
        simp only [unprintableCount, List.filter_cons, isUnprintableByte]
        simp [h1, h2, renderByte]
        omega

theorem hexEncode_length (payload : List Nat) :
    (hexEncode payload).length = 2 * payload.length := by
  simp only [hexEncode, String.length_mk]
  induction payload with
  | nil => simp
  | cons b rest ih => simp [hexByte, List.flatMap_cons, ih]; omega

/-! ## C1: payload-preview rendering rule -/

/-- C1.  `formatPayload` renders the preview bytes as trimmed ASCII (with
CR/LF/TAB mapped to a space and other unprintables to `.`) when the
unprintable fraction is at most 0.3 (`10·u ≤ 3·n`), and as lowercase hex
otherwise; the hex encoding has exactly two characters per preview byte. -/
theorem payload_preview_rule (payload : List Nat) :
    formatPayload payload =
      (if 10 * unprintableCount payload > 3 * payload.length then hexEncode payload
       else trimSpace (String.mk (payload.map renderByte)))
    ∧ (hexEncode payload).length = 2 * payload.length := by
  constructor
  · simp only [formatPayload]
    rw [formatPayload_fold payload [] 0]
    simp
  · exact hexEncode_length payload

theorem ne_empty_of_hasSub (n hay : String) (hn : n.data ≠ []) (h : hasSub n hay = true) :
    hay ≠ "" := by
  intro he
  rw [he] at h
  simp only [hasSub, containsSub, List.isEmpty_iff] at h
  exact hn h

/-! ## C2: no-layer frames still render a summary

The claim as stated fails: `printPacketInfo` appends the length field only
under `packet.Metadata().Length > 0`, and the timestamp only inside the
Ethernet branch, so a zero-length frame with no recognized layers produces
an empty summary line. -/

/-- A zero-length garbage frame: nothing decodes, `Metadata().Length = 0`. -/
def noLayerZeroLenPacket : Packet where
  meta := ⟨⟨0, 0, 0, 0⟩, 0, 0⟩
  eth := none
  ip4 := none
  ip6 := none
  tcp := none
  udp := none
  icmp4 := none
  icmp6 := none
  dns := none
  layers := []
  appPayload := none
  data := []

/-- C2 counterexample: a zero-length frame with no recognized layers yields
an empty summary line — not a non-empty line containing the length field. -/
theorem zero_length_frame_empty_summary :
    buildOutput noLayerZeroLenPacket 64 = ""
    ∧ ¬(buildOutput noLayerZeroLenPacket 64 ≠ ""
        ∧ hasSub "length" (buildOutput noLayerZeroLenPacket 64) = true) := by
  decide

/-- C2 (amended).  The per-frame render step is a total function (so no
frame can make it panic), and a frame in which no layer is recognized and
whose total length is positive produces a non-empty summary line containing
the length field. -/
theorem no_layer_summary_contains_length (p : Packet) (payloadLen : Int)
    (he : p.eth = none) (h4 : p.ip4 = none) (h6 : p.ip6 = none)
    (ht : p.tcp = none) (hu : p.udp = none) (hi : p.icmp4 = none)
    (hi6 : p.icmp6 = none) (hd : p.dns = none) (hl : 0 < p.meta.length) :
    buildOutput p payloadLen ≠ ""
    ∧ hasSub "length" (buildOutput p payloadLen) = true := by
  have hsub : hasSub "length" (buildOutput p payloadLen) = true := by
    simp only [buildOutput, ethBlock, ip4Block, ip6Block, tcpBlock, udpBlock,
      icmpBlock, icmp6Block, dnsBlock, lenBlock, he, h4, h6, ht, hu, hi, hi6, hd,
      if_pos hl]
    apply hasSub_append_left
    apply hasSub_append_right
    apply hasSub_append_left
    apply hasSub_append_left
    decide
  exact ⟨ne_empty_of_hasSub _ _ (by decide) hsub, hsub⟩

/-- A garbage frame with no recognized layers but positive on-wire length. -/
def noLayerPacket5 : Packet where
  meta := ⟨⟨0, 0, 0, 0⟩, 5, 5⟩
  eth := none
  ip4 := none
  ip6 := none
  tcp := none
  udp := none
  icmp4 := none
  icmp6 := none
  dns := none
  layers := []
  appPayload := none
  data := [1, 2, 3, 4, 5]

theorem no_layer_summary_contains_length_witness :
    buildOutput noLayerPacket5 0 ≠ ""
    ∧ hasSub "length" (buildOutput noLayerPacket5 0) = true :=
  no_layer_summary_contains_length noLayerPacket5 0 rfl rfl rfl rfl rfl rfl rfl rfl
    (by decide)

/-! ## C7: summary-line field order

The fixed field order and the TCP flag-letter priority hold, but the claim's
"the timestamp is present whenever the frame is rendered" fails: the Go code
computes the timestamp up front and prints it only inside the
`ethernetLayer != nil` branch, so a rendered frame without an Ethernet layer
carries no timestamp. -/

/-- An IPv4 frame captured without an Ethernet layer (e.g. from a raw-IP
link): it renders a non-empty summary, with no timestamp in it. -/
def ip4OnlyPacket : Packet where
  meta := ⟨⟨12, 34, 56, 7⟩, 60, 60⟩
  eth := none
  ip4 := some ⟨"10.0.0.1", "10.0.0.2"⟩
  ip6 := none
  tcp := none
  udp := none
  icmp4 := none
  icmp6 := none
  dns := none
  layers := ["IPv4"]
  appPayload := none
  data := [69, 0, 0, 60]

/-- C7 counterexample: this frame is rendered (non-empty summary line), yet
its timestamp `12:34:56.000007` appears nowhere in the line. -/
theorem timestamp_absent_without_ethernet :
    buildOutput ip4OnlyPacket 0 ≠ ""
    ∧ hasSub (fmtTimestamp ip4OnlyPacket.meta.ts) (buildOutput ip4OnlyPacket 0) = false := by
  decide

/-- An Ethernet/IPv4/TCP SYN frame. -/
def synPacket : Packet where
  meta := ⟨⟨10, 0, 0, 0⟩, 74, 74⟩
  eth := some ⟨"aa:aa:aa:aa:aa:aa", "bb:bb:bb:bb:bb:bb"⟩
  ip4 := some ⟨"127.0.0.1", "127.0.0.1"⟩
  ip6 := none
  tcp := some ⟨12345, 80, true, false, false, false, false, false, 1000, 0, 65535⟩
  udp := none
  icmp4 := none
  icmp6 := none
  dns := none
  layers := ["Ethernet", "IPv4", "TCP"]
  appPayload := none
  data := [0, 1, 2, 3]

/-- C7 (amended).  The summary line concatenates the decoded fields in the
fixed order link (with the fixed-width timestamp attached to the link-layer
block), network, transport, ICMP/ICMPv6, DNS, total length: the timestamp is
present exactly when the link layer is, and the TCP flag letters appear in
the priority order S, A, F, R, P, U (the set flags select a subsequence of
`SAFRPU`). -/
theorem summary_field_order (p : Packet) (payloadLen : Int) :
    buildOutput p payloadLen
      = ethBlock p ++ ip4Block p ++ ip6Block p ++ tcpBlock p ++ udpBlock p
        ++ icmpBlock p ++ icmp6Block p ++ dnsBlock p ++ lenBlock p
        ++ payloadBlock p payloadLen
    ∧ (fmtTimestamp p.meta.ts).length = 15
    ∧ (p.eth = none → ethBlock p = "")
    ∧ (∀ e, p.eth = some e →
        ethBlock p = fmtTimestamp p.meta.ts ++ " " ++ e.srcMAC ++ " > " ++ e.dstMAC ++ ", ")
    ∧ (∀ t : TCPL, tcpFlags t =
        String.mk ((([('S', t.syn), ('A', t.ack), ('F', t.fin), ('R', t.rst),
          ('P', t.psh), ('U', t.urg)]).filter (fun x => x.2)).map (fun x => x.1))) := by
  refine ⟨rfl, ?_, ?_, ?_, ?_⟩
  · simp [fmtTimestamp, pad2, pad6, String.length_append, String.length_mk,
      String.length, List.length_map, List.length_reverse, List.length_range]
  · intro he
    simp [ethBlock, he]
  · intro e he
    simp [ethBlock, he]
  · intro t
    obtain ⟨sp, dp, fsyn, fack, ffin, frst, fpsh, furg, sq, an, wn⟩ := t
    cases fsyn <;> cases fack <;> cases ffin <;> cases frst <;> cases fpsh <;>
      cases furg <;> rfl

theorem summary_field_order_witness :
    ethBlock synPacket
      = fmtTimestamp synPacket.meta.ts ++ " " ++ "aa:aa:aa:aa:aa:aa"
        ++ " > " ++ "bb:bb:bb:bb:bb:bb" ++ ", "
    ∧ ethBlock noLayerZeroLenPacket = "" :=
  ⟨(summary_field_order synPacket 0).2.2.2.1 ⟨"aa:aa:aa:aa:aa:aa", "bb:bb:bb:bb:bb:bb"⟩ rfl,
   (summary_field_order noLayerZeroLenPacket 0).2.2.1 rfl⟩

/-! ## C6: DNS query labelling

The code labels DNS queries `" DNS Query"` (capital Q), not `"DNS query"` as
the claim states; the queried name does appear in the summary. -/

/-- A UDP frame to port 53 carrying a well-formed DNS query for
`example.com`. -/
def dnsQueryPacket : Packet where
  meta := ⟨⟨9, 30, 0, 123⟩, 82, 82⟩
  eth := some ⟨"aa:aa:aa:aa:aa:aa", "bb:bb:bb:bb:bb:bb"⟩
  ip4 := some ⟨"192.168.1.2", "8.8.8.8"⟩
  ip6 := none
  tcp := none
  udp := some ⟨54321, 53, 48⟩
  icmp4 := none
  icmp6 := none
  dns := some ⟨false, ["example.com"], []⟩
  layers := ["Ethernet", "IPv4", "UDP", "DNS"]
  appPayload := some [18, 52, 1, 0, 0, 1, 0, 0, 0, 0, 0, 0]
  data := [0, 1, 2, 3]

/-- C6 counterexample: the rendered summary of a port-53 DNS query contains
no occurrence of `"DNS query"` — the code writes `"DNS Query"`. -/
theorem dns_label_not_lowercase_query :
    hasSub "DNS query" (buildOutput dnsQueryPacket 0) = false
    ∧ hasSub "DNS Query" (buildOutput dnsQueryPacket 0) = true := by
  decide

/-- C6 (amended).  For every UDP frame to port 53 whose DNS layer decodes as
a query for `example.com`, the summary carries the application-layer label
`"DNS Query"` (capital Q) and includes the name `example.com`. -/
theorem dns_query_label_and_name (p : Packet) (payloadLen : Int) (u : UDPL)
    (hu : p.udp = some u) (hport : u.dstPort = 53)
    (hd : p.dns = some ⟨false, ["example.com"], []⟩) :
    hasSub "DNS Query" (buildOutput p payloadLen) = true
    ∧ hasSub "example.com" (buildOutput p payloadLen) = true := by
  have hdns : dnsBlock p = " DNS Query example.com" := by
    unfold dnsBlock
    rw [hd]
    decide
  constructor
  · simp only [buildOutput]
    apply hasSub_append_left
    apply hasSub_append_left
    apply hasSub_append_right
    rw [hdns]
    decide
  · simp only [buildOutput]
    apply hasSub_append_left
    apply hasSub_append_left
    apply hasSub_append_right
    rw [hdns]
    decide

theorem dns_query_label_and_name_witness :
    hasSub "DNS Query" (buildOutput dnsQueryPacket 64) = true
    ∧ hasSub "example.com" (buildOutput dnsQueryPacket 64) = true :=
  dns_query_label_and_name dnsQueryPacket 64 ⟨54321, 53, 48⟩ rfl rfl rfl

/-! ## C5: per-layer statistics -/

theorem foldl_bump_apply (l : List String) (m : String → Nat) (k : String) :
    l.foldl (fun m' x => bump m' x) m k = m k + l.count k := by
  induction l generalizing m with
  | nil => simp
  | cons a rest ih =>
    rw [List.foldl_cons, ih]
    by_cases hk : k = a
    · subst hk
      simp [bump, List.count_cons]
      omega
    · simp [bump, hk, List.count_cons, Ne.symm hk]

theorem addPacket_protocolMap (ps : PacketStats) (p : Packet) (k : String) :
    (addPacket ps p).protocolMap k = ps.protocolMap k + p.layers.count k := by
  cases h4 : p.ip4 <;> cases h6 : p.ip6 <;> cases ht : p.tcp <;> cases hu : p.udp <;>
    simp [addPacket, h4, h6, ht, hu, foldl_bump_apply]

theorem addPacket_packetCount (ps : PacketStats) (p : Packet) :
    (addPacket ps p).packetCount = ps.packetCount + 1 := by
  cases h4 : p.ip4 <;> cases h6 : p.ip6 <;> cases ht : p.tcp <;> cases hu : p.udp <;>
    simp [addPacket, h4, h6, ht, hu]

/-- An Ethernet/IPv4/UDP frame, as counted by the statistics recorder. -/
def udpStatPacket : Packet where
  meta := ⟨⟨10, 0, 1, 0⟩, 90, 90⟩
  eth := some ⟨"aa:aa:aa:aa:aa:aa", "bb:bb:bb:bb:bb:bb"⟩
  ip4 := some ⟨"10.0.0.1", "10.0.0.9"⟩
  ip6 := none
  tcp := none
  udp := some ⟨4000, 5000, 70⟩
  icmp4 := none
  icmp6 := none
  dns := none
  layers := ["Ethernet", "IPv4", "UDP"]
  appPayload := none
  data := [0, 1]

/-- Statistics after the 10-frame scenario: 6 TCP frames then 4 UDP
frames. -/
def scenarioStats : PacketStats :=
  (List.replicate 6 synPacket ++ List.replicate 4 udpStatPacket).foldl
    addPacket newPacketStats

/-- C5.  Each `AddPacket` call bumps the per-layer counter of every decoded
layer by the layer's multiplicity, so the per-layer increments contributed
by one packet sum to its number of decoded layers; after 10 frames
(6 TCP, 4 UDP) the layer-count map holds 6 for TCP, 4 for UDP, and the
total frame count is 10. -/
theorem addPacket_layer_counts (ps : PacketStats) (p : Packet) :
    ((p.layers.dedup.map
        fun k => (addPacket ps p).protocolMap k - ps.protocolMap k).sum
      = p.layers.length)
    ∧ scenarioStats.protocolMap "TCP" = 6
    ∧ scenarioStats.protocolMap "UDP" = 4
    ∧ scenarioStats.packetCount = 10 := by
  refine ⟨?_, by decide, by decide, by decide⟩
  have h : (p.layers.dedup.map
      fun k => (addPacket ps p).protocolMap k - ps.protocolMap k)
      = p.layers.dedup.map fun k => p.layers.count k := by
    apply List.map_congr_left
    intro k _
    rw [addPacket_protocolMap]
    omega
  rw [h, List.sum_map_count_dedup_eq_length]

/-! ## Capture-loop lemmas -/

/-- With a positive budget not yet reached and enough frames arriving, the
loop processes exactly the frames needed to fill the budget. -/
theorem captureLoop_frames (count : Int) (frames : List Packet) (n : Int)
    (hpos : 0 < count) (hn : n < count) (hlen : count ≤ n + frames.length) :
    captureLoop count (frames.map LoopEvent.frame) n
      = some (frames.take (count - n).toNat) := by
  induction frames generalizing n with
  | nil =>
    exfalso
    simp only [List.length_nil] at hlen
    omega
  | cons p rest ih =>
    simp only [List.map_cons, captureLoop]
    by_cases hstop : 0 < count ∧ count ≤ n + 1
    · rw [if_pos hstop]
      have h1 : (count - n).toNat = 1 := by omega
      rw [h1]
      simp
    · rw [if_neg hstop]
      have hn' : n + 1 < count := by omega
      have hlen' : count ≤ n + 1 + rest.length := by
        simp only [List.length_cons] at hlen
        push_cast at hlen ⊢
        omega
      rw [ih (n + 1) hn' hlen']
      have h2 : (count - n).toNat = (count - (n + 1)).toNat + 1 := by omega
      rw [h2]
      simp

/-- Anything scheduled after a stop request is never consumed: the loop
result only depends on the schedule up to the first stop. -/
theorem captureLoop_stop_tail (count : Int) (es : List LoopEvent)
    (tail tail' : List LoopEvent) (n : Int) :
    captureLoop count (es ++ LoopEvent.stop :: tail) n
      = captureLoop count (es ++ LoopEvent.stop :: tail') n := by
  induction es generalizing n with
  | nil => rfl
  | cons e rest ih =>
    cases e with
    | frame p =>
      simp only [List.cons_append, captureLoop]
      by_cases hstop : 0 < count ∧ count ≤ n + 1
      · simp only [if_pos hstop]
      · simp only [if_neg hstop]
        exact congrArg (Option.map _) (ih (n + 1))
    | chanClosed => rfl
    | stop => rfl

/-! ## Per-frame trace projections -/

theorem acquires_append (a b : List TraceEv) :
    acquires (a ++ b) = acquires a ++ acquires b := by
  simp [acquires, List.filterMap_append]

theorem releases_append (a b : List TraceEv) :
    releases (a ++ b) = releases a ++ releases b := by
  simp [releases, List.filterMap_append]

theorem emitLines_append (a b : List TraceEv) :
    emitLines (a ++ b) = emitLines a ++ emitLines b := by
  simp [emitLines, List.filterMap_append]

theorem pcapWrites_append (a b : List TraceEv) :
    pcapWrites (a ++ b) = pcapWrites a ++ pcapWrites b := by
  simp [pcapWrites, List.filterMap_append]

theorem acquires_perFrameOne (c : SnifferConfig) (p : Packet) :
    acquires (perFrameTrace c p) = [] := by
  by_cases hp : c.savePcap = "" <;> simp [perFrameTrace, acquires, hp]

theorem releases_perFrameOne (c : SnifferConfig) (p : Packet) :
    releases (perFrameTrace c p) = [] := by
  by_cases hp : c.savePcap = "" <;> simp [perFrameTrace, releases, hp]

theorem emitLines_perFrameOne (c : SnifferConfig) (p : Packet) :
    emitLines (perFrameTrace c p) = [buildOutput p c.payloadLen] := by
  by_cases hp : c.savePcap = "" <;> simp [perFrameTrace, emitLines, hp]

theorem stats_perFrameOne (c : SnifferConfig) (p : Packet) :
    (perFrameTrace c p).filter (· = TraceEv.statsReport) = [] := by
  by_cases hp : c.savePcap = "" <;> simp [perFrameTrace, hp]

theorem pcapWrites_perFrameOne (c : SnifferConfig) (hp : c.savePcap ≠ "")
    (p : Packet) :
    pcapWrites (perFrameTrace c p) = [PcapWrite.record p.meta p.data] := by
  simp [perFrameTrace, pcapWrites, hp]

theorem perFrame_acquires (c : SnifferConfig) (l : List Packet) :
    acquires (l.flatMap (perFrameTrace c)) = [] := by
  induction l with
  | nil => rfl
  | cons p rest ih =>
    rw [List.flatMap_cons, acquires_append, acquires_perFrameOne, ih]
    rfl

theorem perFrame_releases (c : SnifferConfig) (l : List Packet) :
    releases (l.flatMap (perFrameTrace c)) = [] := by
  induction l with
  | nil => rfl
  | cons p rest ih =>
    rw [List.flatMap_cons, releases_append, releases_perFrameOne, ih]
    rfl

theorem perFrame_emitLines (c : SnifferConfig) (l : List Packet) :
    emitLines (l.flatMap (perFrameTrace c))
      = l.map fun p => buildOutput p c.payloadLen := by
  induction l with
  | nil => rfl
  | cons p rest ih =>
    rw [List.flatMap_cons, emitLines_append, emitLines_perFrameOne, ih, List.map_cons]
    rfl

theorem perFrame_no_stats (c : SnifferConfig) (l : List Packet) :
    (l.flatMap (perFrameTrace c)).filter (· = TraceEv.statsReport) = [] := by
  induction l with
  | nil => rfl
  | cons p rest ih =>
    rw [List.flatMap_cons, List.filter_append, stats_perFrameOne, ih]
    rfl

theorem perFrame_pcapWrites (c : SnifferConfig) (hp : c.savePcap ≠ "")
    (l : List Packet) :
    pcapWrites (l.flatMap (perFrameTrace c))
      = l.map fun p => PcapWrite.record p.meta p.data := by
  induction l with
  | nil => rfl
  | cons p rest ih =>
    rw [List.flatMap_cons, pcapWrites_append, pcapWrites_perFrameOne c hp, ih,
      List.map_cons]
    rfl

/-! ## Session-run lemmas -/

/-- All external calls a given configuration performs succeed. -/
def envOk (c : SnifferConfig) (env : Env) : Prop :=
  env.openOk = true ∧ (c.filter ≠ "" → env.filterOk = true)
    ∧ (c.output ≠ "" → env.outFileOk = true)
    ∧ (c.savePcap ≠ "" → env.pcapFileOk = true ∧ env.headerOk = true)

instance (c : SnifferConfig) (env : Env) : Decidable (envOk c env) := by
  unfold envOk
  infer_instance

/-- The actions of the successful setup phase, in order. -/
def setupTrace (c : SnifferConfig) (env : Env) : List TraceEv :=
  [TraceEv.openLive c.interface (effSnaplen c) c.promiscuous, TraceEv.acquire Res.capture]
    ++ (if c.output ≠ "" then [TraceEv.acquire Res.outFile] else [])
    ++ (if c.savePcap ≠ "" then [TraceEv.acquire Res.pcapFile] else [])
    ++ (if c.savePcap ≠ ""
        then [TraceEv.writeFileHeader (toUInt32 (effSnaplen c)) env.linkType] else [])

/-- The deferred releases run at return, last acquired first. -/
def finTrace (c : SnifferConfig) : List TraceEv :=
  (if c.savePcap ≠ "" then [TraceEv.release Res.pcapFile] else [])
    ++ (if c.output ≠ "" then [TraceEv.release Res.outFile] else [])
    ++ [TraceEv.release Res.capture]

theorem startSnifferRun_ok (c : SnifferConfig) (env : Env) (events : List LoopEvent)
    (processed : List Packet) (henv : envOk c env)
    (hloop : captureLoop c.count events 0 = some processed) :
    startSnifferRun c env events
      = some (Except.ok (),
          setupTrace c env ++ processed.flatMap (perFrameTrace c)
            ++ (if c.statistics then [TraceEv.statsReport] else []) ++ finTrace c) := by
  obtain ⟨h1, h2, h3, h4⟩ := henv
  have hfc : ¬(c.filter ≠ "" ∧ ¬env.filterOk = true) := by
    by_cases hf : c.filter = ""
    · simp [hf]
    · simp [hf, h2 hf]
  have hoc : ¬(c.output ≠ "" ∧ ¬env.outFileOk = true) := by
    by_cases ho : c.output = ""
    · simp [ho]
    · simp [ho, h3 ho]
  have hpc : ¬(c.savePcap ≠ "" ∧ ¬env.pcapFileOk = true) := by
    by_cases hp : c.savePcap = ""
    · simp [hp]
    · simp [hp, (h4 hp).1]
  have hhc : ¬(c.savePcap ≠ "" ∧ ¬env.headerOk = true) := by
    by_cases hp : c.savePcap = ""
    · simp [hp]
    · simp [hp, (h4 hp).2]
  simp only [startSnifferRun, h1, hfc, hoc, hpc, hhc, hloop, not_true,
    if_false, setupTrace, finTrace, List.append_assoc, if_neg, not_false_iff]
  simp [List.append_assoc]


/-- Shape of every completed run's trace: releases mirror acquisitions in
reverse, nothing is acquired twice, at most one statistics report, the trace
opens with the `OpenLive` call, and error results processed no frame. -/
theorem run_trace_shape (c : SnifferConfig) (env : Env) (ev : List LoopEvent)
    (r : Except String Unit) (tr : List TraceEv)
    (h : startSnifferRun c env ev = some (r, tr)) :
    releases tr = (acquires tr).reverse ∧ (acquires tr).Nodup
    ∧ statsReports tr ≤ 1
    ∧ tr.head? = some (TraceEv.openLive c.interface (effSnaplen c) c.promiscuous)
    ∧ (∀ e, r = Except.error e → emitLines tr = [] ∧ recordWrites tr = 0) := by
  by_cases h1 : env.openOk = true
  case neg =>
    have heq : startSnifferRun c env ev
        = some (Except.error "open interface failed",
            [TraceEv.openLive c.interface (effSnaplen c) c.promiscuous]) := by
      simp [startSnifferRun, h1]
    rw [heq] at h
    simp only [Option.some.injEq, Prod.mk.injEq] at h
    obtain ⟨hr, htr⟩ := h
    subst hr
    subst htr
    exact ⟨rfl, by simp [acquires], by simp [statsReports], rfl, fun e _ => ⟨rfl, rfl⟩⟩
  by_cases hfc : c.filter ≠ "" ∧ ¬env.filterOk = true
  case pos =>
    have heq : startSnifferRun c env ev
        = some (Except.error "set filter failed",
            [TraceEv.openLive c.interface (effSnaplen c) c.promiscuous,
             TraceEv.acquire Res.capture, TraceEv.release Res.capture]) := by
      simp [startSnifferRun, h1, hfc.1, hfc.2]
    rw [heq] at h
    simp only [Option.some.injEq, Prod.mk.injEq] at h
    obtain ⟨hr, htr⟩ := h
    subst hr
    subst htr
    exact ⟨rfl, by simp [acquires], by simp [statsReports], rfl, fun e _ => ⟨rfl, rfl⟩⟩
  have hfil : c.filter = "" ∨ env.filterOk = true := by
    rcases not_and_or.mp hfc with hf | hf
    · exact Or.inl (not_not.mp hf)
    · exact Or.inr (not_not.mp hf)
  by_cases hoc : c.output ≠ "" ∧ ¬env.outFileOk = true
  case pos =>
    have heq : startSnifferRun c env ev
        = some (Except.error "create output file failed",
            [TraceEv.openLive c.interface (effSnaplen c) c.promiscuous,
             TraceEv.acquire Res.capture, TraceEv.release Res.capture]) := by
      rcases hfil with hx | hx <;> simp [startSnifferRun, h1, hx, hoc.1, hoc.2]
    rw [heq] at h
    simp only [Option.some.injEq, Prod.mk.injEq] at h
    obtain ⟨hr, htr⟩ := h
    subst hr
    subst htr
    exact ⟨rfl, by simp [acquires], by simp [statsReports], rfl, fun e _ => ⟨rfl, rfl⟩⟩
  have hout : c.output = "" ∨ env.outFileOk = true := by
    rcases not_and_or.mp hoc with hf | hf
    · exact Or.inl (not_not.mp hf)
    · exact Or.inr (not_not.mp hf)
  by_cases hpc : c.savePcap ≠ "" ∧ ¬env.pcapFileOk = true
  case pos =>
    by_cases ho : c.output = ""
    · have heq : startSnifferRun c env ev
          = some (Except.error "create pcap file failed",
              [TraceEv.openLive c.interface (effSnaplen c) c.promiscuous,
               TraceEv.acquire Res.capture, TraceEv.release Res.capture]) := by
        rcases hfil with hx | hx <;>
          simp [startSnifferRun, h1, hx, ho, hpc.1, hpc.2]
      rw [heq] at h
      simp only [Option.some.injEq, Prod.mk.injEq] at h
      obtain ⟨hr, htr⟩ := h
      subst hr
      subst htr
      exact ⟨rfl, by simp [acquires], by simp [statsReports], rfl, fun e _ => ⟨rfl, rfl⟩⟩
    · have heq : startSnifferRun c env ev
          = some (Except.error "create pcap file failed",
              [TraceEv.openLive c.interface (effSnaplen c) c.promiscuous,
               TraceEv.acquire Res.capture, TraceEv.acquire Res.outFile,
               TraceEv.release Res.outFile, TraceEv.release Res.capture]) := by
        have hy : env.outFileOk = true := hout.resolve_left ho
        rcases hfil with hx | hx <;>
          simp [startSnifferRun, h1, hx, hy, ho, hpc.1, hpc.2]
      rw [heq] at h
      simp only [Option.some.injEq, Prod.mk.injEq] at h
      obtain ⟨hr, htr⟩ := h
      subst hr
      subst htr
      exact ⟨rfl, by simp [acquires], by simp [statsReports], rfl, fun e _ => ⟨rfl, rfl⟩⟩
  have hpcap : c.savePcap = "" ∨ env.pcapFileOk = true := by
    rcases not_and_or.mp hpc with hf | hf
    · exact Or.inl (not_not.mp hf)
    · exact Or.inr (not_not.mp hf)
  by_cases hhc : c.savePcap ≠ "" ∧ ¬env.headerOk = true
  case pos =>
    by_cases ho : c.output = ""
    · have heq : startSnifferRun c env ev
          = some (Except.error "write pcap header failed",
              [TraceEv.openLive c.interface (effSnaplen c) c.promiscuous,
               TraceEv.acquire Res.capture, TraceEv.acquire Res.pcapFile,
               TraceEv.release Res.pcapFile, TraceEv.release Res.capture]) := by
        have hz : env.pcapFileOk = true := hpcap.resolve_left hhc.1
        rcases hfil with hx | hx <;>
          simp [startSnifferRun, h1, hx, hz, ho, hhc.1, hhc.2]
      rw [heq] at h
      simp only [Option.some.injEq, Prod.mk.injEq] at h
      obtain ⟨hr, htr⟩ := h
      subst hr
      subst htr
      exact ⟨rfl, by simp [acquires], by simp [statsReports], rfl, fun e _ => ⟨rfl, rfl⟩⟩
    · have heq : startSnifferRun c env ev
          = some (Except.error "write pcap header failed",
              [TraceEv.openLive c.interface (effSnaplen c) c.promiscuous,
               TraceEv.acquire Res.capture, TraceEv.acquire Res.outFile,
               TraceEv.acquire Res.pcapFile, TraceEv.release Res.pcapFile,
               TraceEv.release Res.outFile, TraceEv.release Res.capture]) := by
        have hy : env.outFileOk = true := hout.resolve_left ho
        have hz : env.pcapFileOk = true := hpcap.resolve_left hhc.1
        rcases hfil with hx | hx <;>
          simp [startSnifferRun, h1, hx, hy, hz, ho, hhc.1, hhc.2]
      rw [heq] at h
      simp only [Option.some.injEq, Prod.mk.injEq] at h
      obtain ⟨hr, htr⟩ := h
      subst hr
      subst htr
      exact ⟨rfl, by simp [acquires], by simp [statsReports], rfl, fun e _ => ⟨rfl, rfl⟩⟩
  have hhdr : c.savePcap = "" ∨ env.headerOk = true := by
    rcases not_and_or.mp hhc with hf | hf
    · exact Or.inl (not_not.mp hf)
    · exact Or.inr (not_not.mp hf)
  have henv : envOk c env := by
    refine ⟨h1, ?_, ?_, ?_⟩
    · intro hf
      by_contra hb
      exact hfc ⟨hf, hb⟩
    · intro hofile
      by_contra hb
      exact hoc ⟨hofile, hb⟩
    · intro hpfile
      constructor
      · by_contra hb
        exact hpc ⟨hpfile, hb⟩
      · by_contra hb
        exact hhc ⟨hpfile, hb⟩
  rcases hl : captureLoop c.count ev 0 with _ | processed
  · have heq : startSnifferRun c env ev = none := by
      rcases hfil with hx | hx <;> rcases hout with hy | hy <;>
        rcases hpcap with hz | hz <;> rcases hhdr with hw | hw <;>
          simp [startSnifferRun, h1, hx, hy, hz, hw, hl]
    rw [heq] at h
    exact absurd h (by simp)
  · rw [startSnifferRun_ok c env ev processed henv hl] at h
    simp only [Option.some.injEq, Prod.mk.injEq] at h
    obtain ⟨hr, htr⟩ := h
    subst hr
    subst htr
    have hrel := perFrame_releases c processed
    have hacq := perFrame_acquires c processed
    have hst := perFrame_no_stats c processed
    refine ⟨?_, ?_, ?_, ?_, fun e he => Except.noConfusion he⟩
    · rw [releases_append, releases_append, releases_append, hrel,
        acquires_append, acquires_append, acquires_append, hacq]
      by_cases ho : c.output = "" <;> by_cases hp : c.savePcap = "" <;>
        by_cases hs : c.statistics = true <;>
          simp [setupTrace, finTrace, releases, acquires, ho, hp, hs]
    · rw [acquires_append, acquires_append, acquires_append, hacq]
      by_cases ho : c.output = "" <;> by_cases hp : c.savePcap = "" <;>
        by_cases hs : c.statistics = true <;>
          simp [setupTrace, finTrace, acquires, ho, hp, hs]
    · simp only [statsReports, List.filter_append, List.length_append, hst]
      by_cases ho : c.output = "" <;> by_cases hp : c.savePcap = "" <;>
        by_cases hs : c.statistics = true <;>
          simp [setupTrace, finTrace, statsReports, List.filter_append,
            List.length_append, hst, ho, hp, hs]
    · simp [setupTrace]

theorem emitLines_setupTrace (c : SnifferConfig) (env : Env) :
    emitLines (setupTrace c env) = [] := by
  by_cases ho : c.output = "" <;> by_cases hp : c.savePcap = "" <;>
    simp [setupTrace, emitLines, ho, hp]

theorem emitLines_finTrace (c : SnifferConfig) :
    emitLines (finTrace c) = [] := by
  by_cases ho : c.output = "" <;> by_cases hp : c.savePcap = "" <;>
    simp [finTrace, emitLines, ho, hp]

theorem emitLines_statsIf (c : SnifferConfig) :
    emitLines (if c.statistics = true then [TraceEv.statsReport] else []) = [] := by
  by_cases hs : c.statistics = true <;> simp [emitLines, hs]

theorem pcapWrites_setupTrace (c : SnifferConfig) (env : Env) (hp : c.savePcap ≠ "") :
    pcapWrites (setupTrace c env)
      = [PcapWrite.header (toUInt32 (effSnaplen c)) env.linkType] := by
  by_cases ho : c.output = "" <;> simp [setupTrace, pcapWrites, ho, hp]

theorem pcapWrites_finTrace (c : SnifferConfig) :
    pcapWrites (finTrace c) = [] := by
  by_cases ho : c.output = "" <;> by_cases hp : c.savePcap = "" <;>
    simp [finTrace, pcapWrites, ho, hp]

theorem pcapWrites_statsIf (c : SnifferConfig) :
    pcapWrites (if c.statistics = true then [TraceEv.statsReport] else []) = [] := by
  by_cases hs : c.statistics = true <;> simp [pcapWrites, hs]

/-- With a pcap sink configured and a completed loop, the pcap sink receives
the global file header first and then one record per processed frame, in
order, carrying the frame's capture metadata and raw bytes. -/
theorem run_pcapWrites (c : SnifferConfig) (env : Env) (events : List LoopEvent)
    (processed : List Packet) (hp : c.savePcap ≠ "") (henv : envOk c env)
    (hloop : captureLoop c.count events 0 = some processed) :
    (startSnifferRun c env events).map (fun x => (x.1, pcapWrites x.2))
      = some (Except.ok (),
          PcapWrite.header (toUInt32 (effSnaplen c)) env.linkType
            :: processed.map fun p => PcapWrite.record p.meta p.data) := by
  rw [startSnifferRun_ok c env events processed henv hloop]
  simp only [Option.map_some']
  rw [pcapWrites_append, pcapWrites_append, pcapWrites_append,
    pcapWrites_setupTrace c env hp, perFrame_pcapWrites c hp,
    pcapWrites_statsIf, pcapWrites_finTrace]
  simp

/-! ## C3: packet-count budget -/

/-- C3.  With a positive budget `N` and at least `N` frames arriving (and no
stop request), the session emits exactly the summary lines of the first `N`
frames and then returns successfully — the loop ends by the budget check,
not by an interrupt. -/
theorem budget_processes_exactly_n (c : SnifferConfig) (env : Env)
    (frames : List Packet) (hpos : 0 < c.count)
    (hlen : c.count ≤ (frames.length : Int)) (henv : envOk c env) :
    (startSnifferRun c env (frames.map LoopEvent.frame)).map
        (fun x => (x.1, emitLines x.2))
      = some (Except.ok (),
          (frames.take c.count.toNat).map fun p => buildOutput p c.payloadLen)
    ∧ (frames.take c.count.toNat).length = c.count.toNat := by
  have hloop : captureLoop c.count (frames.map LoopEvent.frame) 0
      = some (frames.take c.count.toNat) := by
    have h := captureLoop_frames c.count frames 0 hpos (by omega) (by omega)
    simpa using h
  constructor
  · rw [startSnifferRun_ok c env _ _ henv hloop]
    simp only [Option.map_some']
    rw [emitLines_append, emitLines_append, emitLines_append,
      emitLines_setupTrace, perFrame_emitLines, emitLines_statsIf,
      emitLines_finTrace]
    simp
  · rw [List.length_take]
    omega

/-- Interface and environment used to instantiate the session theorems. -/
def wEnvOk : Env where
  openOk := true
  linkType := 1
  filterOk := true
  outFileOk := true
  pcapFileOk := true
  headerOk := true

def wCfg3 : SnifferConfig where
  interface := "lo0"
  filter := ""
  timeout := 1000
  output := ""
  snaplen := 0
  promiscuous := false
  count := 3
  verbose := false
  savePcap := ""
  statistics := false
  payloadLen := 0

theorem budget_processes_exactly_n_witness :
    (startSnifferRun wCfg3 wEnvOk ((List.replicate 5 synPacket).map LoopEvent.frame)).map
        (fun x => (x.1, emitLines x.2))
      = some (Except.ok (),
          ((List.replicate 5 synPacket).take wCfg3.count.toNat).map
            fun p => buildOutput p wCfg3.payloadLen)
    ∧ ((List.replicate 5 synPacket).take wCfg3.count.toNat).length
        = wCfg3.count.toNat :=
  budget_processes_exactly_n wCfg3 wEnvOk (List.replicate 5 synPacket)
    (by decide) (by decide) (by decide)

/-! ## C4: resource lifecycle on every exit path -/

/-- C4.  Whenever `StartSniffer` completes with an error (interface open,
filter compile, output-file or pcap-file creation, or pcap-header write
failure), no frame was processed (no summary emitted, no pcap record
written); and on every completed run — error or not — the acquired handles
are released exactly once, in the reverse order of acquisition. -/
theorem error_paths_release_all_handles (c : SnifferConfig) (env : Env)
    (ev : List LoopEvent) (r : Except String Unit) (tr : List TraceEv)
    (h : startSnifferRun c env ev = some (r, tr)) :
    (∀ e, r = Except.error e → emitLines tr = [] ∧ recordWrites tr = 0)
    ∧ releases tr = (acquires tr).reverse ∧ (acquires tr).Nodup := by
  obtain ⟨hrel, hnodup, _, _, herr⟩ := run_trace_shape c env ev r tr h
  exact ⟨herr, hrel, hnodup⟩

def wCfgFail : SnifferConfig where
  interface := "eth0"
  filter := "tcp"
  timeout := 1000
  output := "out.txt"
  snaplen := 1600
  promiscuous := true
  count := 0
  verbose := false
  savePcap := "cap.pcap"
  statistics := true
  payloadLen := 64

def wEnvFail : Env where
  openOk := false
  linkType := 1
  filterOk := true
  outFileOk := true
  pcapFileOk := true
  headerOk := true

theorem error_paths_release_all_handles_witness :
    (∀ e, (Except.error "open interface failed" : Except String Unit)
        = Except.error e →
      emitLines [TraceEv.openLive "eth0" 1600 true] = []
      ∧ recordWrites [TraceEv.openLive "eth0" 1600 true] = 0)
    ∧ releases [TraceEv.openLive "eth0" 1600 true]
        = (acquires [TraceEv.openLive "eth0" 1600 true]).reverse
    ∧ (acquires [TraceEv.openLive "eth0" 1600 true]).Nodup :=
  error_paths_release_all_handles wCfgFail wEnvFail []
    (Except.error "open interface failed") [TraceEv.openLive "eth0" 1600 true]
    (by rfl)

/-! ## C8: stop-request idempotence -/

/-- C8.  The interrupt listener closes the stop channel at most once no
matter how many interrupts arrive; a session whose schedule contains a stop
request is unaffected by anything scheduled after it (so a second stop
request changes nothing); and every completed run finalizes once: each
acquired handle is released exactly once and at most one statistics report
is produced. -/
theorem stop_request_idempotent :
    (∀ n, 1 ≤ n → interruptListener n = 1
      ∧ interruptListener n = interruptListener 1)
    ∧ (∀ (c : SnifferConfig) (env : Env) (es tail tail' : List LoopEvent),
        startSnifferRun c env (es ++ LoopEvent.stop :: tail)
          = startSnifferRun c env (es ++ LoopEvent.stop :: tail'))
    ∧ (∀ (c : SnifferConfig) (env : Env) (ev : List LoopEvent) r tr,
        startSnifferRun c env ev = some (r, tr) →
          releases tr = (acquires tr).reverse ∧ statsReports tr ≤ 1) := by
  refine ⟨?_, ?_, ?_⟩
  · intro n hn
    simp [interruptListener, hn]
  · intro c env es tail tail'
    have hl := captureLoop_stop_tail c.count es tail tail' 0
    unfold startSnifferRun
    rw [hl]
  · intro c env ev r tr h
    obtain ⟨h1, _, h3, _, _⟩ := run_trace_shape c env ev r tr h
    exact ⟨h1, h3⟩

theorem stop_request_idempotent_witness :
    interruptListener 2 = 1
    ∧ startSnifferRun wCfg3 wEnvOk [LoopEvent.stop, LoopEvent.stop]
        = startSnifferRun wCfg3 wEnvOk [LoopEvent.stop] :=
  ⟨(stop_request_idempotent.1 2 (by decide)).1,
   stop_request_idempotent.2.1 wCfg3 wEnvOk [] [LoopEvent.stop] []⟩

/-! ## C9: pcap sink contents -/

/-- C9.  When a pcap path is configured, the pcap sink receives first the
global file header carrying the session snapshot length and the opened
handle's link type, then exactly one record per captured frame, in arrival
order, holding the frame's capture metadata and its raw bytes verbatim. -/
theorem pcap_sink_header_then_records (c : SnifferConfig) (env : Env)
    (events : List LoopEvent) (processed : List Packet)
    (hp : c.savePcap ≠ "") (henv : envOk c env)
    (hloop : captureLoop c.count events 0 = some processed) :
    (startSnifferRun c env events).map (fun x => (x.1, pcapWrites x.2))
      = some (Except.ok (),
          PcapWrite.header (toUInt32 (effSnaplen c)) env.linkType
            :: processed.map fun p => PcapWrite.record p.meta p.data) :=
  run_pcapWrites c env events processed hp henv hloop

def wCfg9 : SnifferConfig where
  interface := "eth0"
  filter := ""
  timeout := -1
  output := ""
  snaplen := 2000
  promiscuous := false
  count := 2
  verbose := false
  savePcap := "cap.pcap"
  statistics := false
  payloadLen := 0

theorem pcap_sink_header_then_records_witness :
    (startSnifferRun wCfg9 wEnvOk
        [LoopEvent.frame synPacket, LoopEvent.frame dnsQueryPacket]).map
        (fun x => (x.1, pcapWrites x.2))
      = some (Except.ok (),
          PcapWrite.header (toUInt32 (effSnaplen wCfg9)) wEnvOk.linkType
            :: ([synPacket, dnsQueryPacket].map
                fun p => PcapWrite.record p.meta p.data)) :=
  pcap_sink_header_then_records wCfg9 wEnvOk
    [LoopEvent.frame synPacket, LoopEvent.frame dnsQueryPacket]
    [synPacket, dnsQueryPacket] (by decide) (by decide) (by rfl)

/-! ## C10: non-positive snapshot length -/

/-- C10.  A configuration with snapshot length ≤ 0 is not rejected: the
session behaves exactly as with snapshot length 1600 — the interface is
opened with 1600, and when a pcap sink is configured the file header
carries 1600. -/
theorem nonpositive_snaplen_defaults_1600 (c : SnifferConfig) (env : Env)
    (events : List LoopEvent) (hsnap : c.snaplen ≤ 0) :
    effSnaplen c = 1600
    ∧ startSnifferRun c env events
        = startSnifferRun { c with snaplen := 1600 } env events
    ∧ (∀ r tr, startSnifferRun c env events = some (r, tr) →
        tr.head? = some (TraceEv.openLive c.interface 1600 c.promiscuous))
    ∧ (∀ processed, c.savePcap ≠ "" → envOk c env →
        captureLoop c.count events 0 = some processed →
        (startSnifferRun c env events).map (fun x => (x.1, pcapWrites x.2))
          = some (Except.ok (),
              PcapWrite.header 1600 env.linkType
                :: processed.map fun p => PcapWrite.record p.meta p.data)) := by
  have h16 : effSnaplen c = 1600 := by
    simp [effSnaplen, hsnap]
  refine ⟨h16, ?_, ?_, ?_⟩
  · have hpf : perFrameTrace { c with snaplen := (1600 : Int) } = perFrameTrace c := by
      funext p
      simp [perFrameTrace]
    have h16' : effSnaplen { c with snaplen := (1600 : Int) } = 1600 := by
      simp [effSnaplen]
    simp only [startSnifferRun, h16, h16', hpf]
  · intro r tr h
    have hh := (run_trace_shape c env events r tr h).2.2.2.1
    rw [h16] at hh
    exact hh
  · intro processed hp henv hloop
    have hw := run_pcapWrites c env events processed hp henv hloop
    rw [h16] at hw
    have ht : toUInt32 1600 = 1600 := by decide
    rw [ht] at hw
    exact hw

def wCfg10 : SnifferConfig where
  interface := "eth0"
  filter := ""
  timeout := 0
  output := ""
  snaplen := -5
  promiscuous := false
  count := 1
  verbose := false
  savePcap := "cap.pcap"
  statistics := false
  payloadLen := 0

theorem nonpositive_snaplen_defaults_1600_witness :
    effSnaplen wCfg10 = 1600
    ∧ startSnifferRun wCfg10 wEnvOk [LoopEvent.frame synPacket]
        = startSnifferRun { wCfg10 with snaplen := 1600 } wEnvOk
            [LoopEvent.frame synPacket]
    ∧ (∀ r tr, startSnifferRun wCfg10 wEnvOk [LoopEvent.frame synPacket]
          = some (r, tr) →
        tr.head? = some (TraceEv.openLive wCfg10.interface 1600 wCfg10.promiscuous))
    ∧ (∀ processed, wCfg10.savePcap ≠ "" → envOk wCfg10 wEnvOk →
        captureLoop wCfg10.count [LoopEvent.frame synPacket] 0 = some processed →
        (startSnifferRun wCfg10 wEnvOk [LoopEvent.frame synPacket]).map
            (fun x => (x.1, pcapWrites x.2))
          = some (Except.ok (),
              PcapWrite.header 1600 wEnvOk.linkType
                :: processed.map fun p => PcapWrite.record p.meta p.data)) :=
  nonpositive_snaplen_defaults_1600 wCfg10 wEnvOk [LoopEvent.frame synPacket]
    (by decide)

end Sniffer
